import Mathlib

/-!
Verification of the delivery-CSV processing core of
`process_delivery_csv.py` (repository `delivery_planilha`).

The Python functions are shallowly embedded as executable Lean
definitions.  Modelling conventions, stated once here:

* Python strings are `String`; most string work is done on `List Char`
  so that every operation is structurally recursive and kernel-reducible.
  `str.lower()` / `str.upper()` are modelled on the ASCII range plus the
  'ç'/'Ç' pair (the only non-ASCII letters occurring in the program's
  month table and header names).
* Python floats are modelled as exact rationals (`ℚ`).  The program only
  adds and compares values that came from short decimal literals, and the
  claims evaluate it on exactly representable values, so IEEE-754
  rounding plays no role; `float('inf')` produced by overflow of a parsed
  literal is modelled by a cutoff at `2 ^ 1024` (`parse_number` maps it
  to `none`, like the source's infinity guard on lines 101-102).
* `None`-able Python values are `Option _`.  Python truthiness (`x or y`,
  `if value:`) is embedded by explicit `pyOr*` functions in which `None`,
  `0`, `0.0` and `""` are falsy — exactly CPython's rule for the types
  that occur here.
* A Python `dict` holding heterogeneous row values is a function
  `String → Option PyVal` (`none` = key absent); an insertion-built
  record whose key *presence* matters (the canonical item of
  `process_csv_file`) is an association list `List (String × PyVal)`.
* `datetime.fromisoformat` (only used as the first, strict branch of
  `normalize_date`) is embedded for the plain `YYYY-MM-DD` form with real
  calendar validation; ISO forms carrying time components are treated as
  unparseable.  None of the claims' inputs reach a successful ISO parse,
  and strings accepted by this branch can never match the other two date
  patterns, so the restriction does not affect any claim.
* The two `re` patterns of `normalize_date`, the pattern of
  `determine_period` and the character-class substitutions of the numeric
  parsers are embedded as hand-rolled matchers that reproduce the
  leftmost/greedy/backtracking behaviour of the corresponding Python
  regexes on all inputs (the few places where greedy matching with
  backtracking is not already deterministic are noted inline).
-/

/- ==================== character and string helpers ==================== -/

/-- ASCII (plus ç) lower-casing, CPython `str.lower()` on the program's
alphabet. -/
def myLower (c : Char) : Char :=
  if 'A' ≤ c ∧ c ≤ 'Z' then Char.ofNat (c.toNat + 32)
  else if c = 'Ç' then 'ç' else c

/-- ASCII (plus ç) upper-casing, CPython `str.upper()` on the program's
alphabet. -/
def myUpper (c : Char) : Char :=
  if 'a' ≤ c ∧ c ≤ 'z' then Char.ofNat (c.toNat - 32)
  else if c = 'ç' then 'Ç' else c

def lowerS (s : String) : String := String.mk (s.toList.map myLower)

def upperS (s : String) : String := String.mk (s.toList.map myUpper)

/-- Python `str.strip()` on a character list: drop whitespace from both
ends. -/
def pyStripL (l : List Char) : List Char :=
  ((l.dropWhile Char.isWhitespace).reverse.dropWhile Char.isWhitespace).reverse

/-- Python `str.strip()`. -/
def pyStrip (s : String) : String := String.mk (pyStripL s.toList)

/-- Substring test on character lists (Python `needle in hay`). -/
def containsSubL (needle : List Char) : List Char → Bool
  | [] => needle.isEmpty
  | c :: t => needle.isPrefixOf (c :: t) || containsSubL needle t

/-- Python `needle in hay` for strings. -/
def containsSub (hay needle : String) : Bool :=
  containsSubL needle.toList hay.toList

/-- Numeric value of a list of decimal digit characters
(`int("0…9 string")`, and the integer part of `float`). -/
def digitsVal (l : List Char) : Nat :=
  l.foldl (fun a c => 10 * a + (c.toNat - 48)) 0

/-- Zero-pad a digit string on the left to width 4 (Python
`str.zfill(4)`; the sign-aware case never occurs because the argument is
always a run of digits). -/
def zfill4 (l : List Char) : List Char :=
  List.replicate (4 - l.length) '0' ++ l

/-- Python `f"{n:02d}"` for the `0 ≤ n ≤ 99` values produced here. -/
def fmt2 (n : Nat) : String :=
  if n < 10 then "0" ++ toString n else toString n

/- ==================== Python truthiness combinators ==================== -/

/-- Python `a or b` on optional rationals: `None` and `0.0` are falsy. -/
def pyOrQ (a b : Option ℚ) : Option ℚ :=
  match a with
  | some x => if x = 0 then b else some x
  | none => b

/-- Python `a or d` where `a` is an optional rational and `d` a numeric
default — the value is always defined. -/
def pyOrQD (a : Option ℚ) (d : ℚ) : ℚ :=
  match a with
  | some x => if x = 0 then d else x
  | none => d

/-- Python `(a or 0.0)`. -/
def pyOrQ0 (a : Option ℚ) : ℚ := pyOrQD a 0

/-- Python `a or b` on optional machine integers: `None` and `0` are
falsy. -/
def pyOrInt (a b : Option Int) : Option Int :=
  match a with
  | some x => if x = 0 then b else some x
  | none => b

/-- Python `a or b` on optional indices (`header_map.get(...)` results):
`None` and index `0` are falsy. -/
def pyOrIdx (a b : Option Nat) : Option Nat :=
  match a with
  | some n => if n = 0 then b else some n
  | none => b

/- ==================== field parsers (source lines 89-130) ==================== -/

/-- The cleaning pipeline of `parse_number` (line 96-97): strip, replace
every `,` by `.`, then delete every character outside `[0-9.-]`. -/
def cleanNumberL (l : List Char) : List Char :=
  ((pyStripL l).map (fun c => if c = ',' then '.' else c)).filter
    (fun c => c.isDigit || c = '.' || c = '-')

/-- Python `float(t)` for a string over the alphabet `[0-9.-]`
(the only inputs it receives in `parse_number`), in the exact-rational
model; `none` is `ValueError`, and the `2 ^ 1024` cutoff models overflow
to infinity, which `parse_number` also maps to `none`. -/
def pyFloatL (t : List Char) : Option ℚ :=
  let neg := t.head? = some '-'
  let body := if neg then t.drop 1 else t
  if body.contains '-' then none
  else
    let ip := body.takeWhile (fun c => c ≠ '.')
    let rest := body.dropWhile (fun c => c ≠ '.')
    let val : Option ℚ :=
      match rest with
      | [] => if ip.isEmpty then none else some ((digitsVal ip : ℚ))
      | _ :: fp =>
        if fp.contains '.' then none
        else if ip.isEmpty ∧ fp.isEmpty then none
        else some ((digitsVal ip : ℚ) + (digitsVal fp : ℚ) / 10 ^ fp.length)
    match val with
    | some v =>
      let v := if neg then -v else v
      if (2 : ℚ) ^ 1024 ≤ |v| then none else some v
    | none => none

/-- `parse_number` (lines 89-105), string branch: clean the input; an
empty or residual `-`/`--`/`.` result is the data-entry value `0.0`;
otherwise parse as a float, with parse failure (and infinity) giving
`None`. -/
def parse_number (s : String) : Option ℚ :=
  let cleaned := cleanNumberL s.toList
  if cleaned = [] ∨ cleaned = ['-'] ∨ cleaned = ['-', '-'] ∨ cleaned = ['.'] then
    some 0
  else pyFloatL cleaned

/-- `parse_number` applied to a value that is already a number or SQL
null (lines 91-94): a finite number converts to itself, `None` stays
`None`.  This is how `calculate_payments` reads the numeric pricing
cells. -/
def parse_number_num (v : Option ℚ) : Option ℚ := v

/-- The residue of `parse_integer`'s substitution `re.sub(r'[^0-9-]', '', v)`
(line 114). -/
def intResidueL (l : List Char) : List Char :=
  l.filter (fun c => c.isDigit || c = '-')

/-- Python `int(t)` for a string over the alphabet `[0-9-]`; `none` is
`ValueError`. -/
def pyIntL (t : List Char) : Option Int :=
  match t with
  | '-' :: r =>
    if r.isEmpty ∨ r.contains '-' then none
    else some (-(digitsVal r : Int))
  | _ =>
    if t.isEmpty ∨ t.contains '-' then none
    else some ((digitsVal t : Int))

/-- `parse_integer` (lines 107-121), string branch: strip all non-digit,
non-`-` characters; an empty or bare-`-` residue is `None`; otherwise
parse as an integer. -/
def parse_integer (s : String) : Option Int :=
  let numeric := intResidueL s.toList
  if numeric = [] ∨ numeric = ['-'] then none
  else pyIntL numeric

/- ==================== normalize_date (source lines 132-166) ==================== -/

/-- `trimmed.replace('Z', '+00:00')` (line 143) on a character list. -/
def replaceZ : List Char → List Char
  | [] => []
  | c :: t =>
    if c = 'Z' then '+' :: '0' :: '0' :: ':' :: '0' :: '0' :: replaceZ t
    else c :: replaceZ t

/-- Character at index `i` is a decimal digit. -/
def isDigitAt (l : List Char) (i : Nat) : Bool :=
  ((l.get? i).map Char.isDigit).getD false

/-- Character at index `i` equals `c`. -/
def charAtIs (l : List Char) (i : Nat) (c : Char) : Bool :=
  (l.get? i) = some c

/-- Days per month as validated by `datetime` for year `y`. -/
def daysInMonth (y m : Nat) : Nat :=
  if m = 2 then
    if y % 4 = 0 ∧ (y % 100 ≠ 0 ∨ y % 400 = 0) then 29 else 28
  else if m = 4 ∨ m = 6 ∨ m = 9 ∨ m = 11 then 30
  else 31

/-- The strict ISO branch of `normalize_date` (lines 142-146):
`datetime.fromisoformat` restricted to the plain 10-character
`YYYY-MM-DD` form with real calendar validation.  On success the
subsequent `strftime('%Y-%m-%d')` reproduces the input string, so the
parser returns the accepted characters themselves. -/
def isoParseL (l : List Char) : Option (List Char) :=
  if l.length = 10 && isDigitAt l 0 && isDigitAt l 1 && isDigitAt l 2 &&
      isDigitAt l 3 && charAtIs l 4 '-' && isDigitAt l 5 && isDigitAt l 6 &&
      charAtIs l 7 '-' && isDigitAt l 8 && isDigitAt l 9 then
    let y := digitsVal (l.take 4)
    let m := digitsVal ((l.drop 5).take 2)
    let d := digitsVal ((l.drop 8).take 2)
    if 1 ≤ y ∧ 1 ≤ m ∧ m ≤ 12 ∧ 1 ≤ d ∧ d ≤ daysInMonth y m then some l
    else none
  else none

/-- `MONTHS_PT` (lines 72-85). -/
def MONTHS_PT : List (String × Nat) :=
  [("jan", 1), ("janeiro", 1), ("fev", 2), ("fevereiro", 2),
   ("mar", 3), ("março", 3), ("marco", 3), ("abr", 4), ("abril", 4),
   ("mai", 5), ("maio", 5), ("jun", 6), ("junho", 6), ("jul", 7),
   ("julho", 7), ("ago", 8), ("agosto", 8), ("set", 9), ("setembro", 9),
   ("out", 10), ("outubro", 10), ("nov", 11), ("novembro", 11),
   ("dez", 12), ("dezembro", 12)]

/-- The month-name character class `[a-zç]` under `re.IGNORECASE`. -/
def isPtLetter (c : Char) : Bool :=
  ('a' ≤ c && c ≤ 'z') || ('A' ≤ c && c ≤ 'Z') || c = 'ç' || c = 'Ç'

/-- `clean_month` lookup (lines 152-153): lower-case the matched name and
look it up in `MONTHS_PT` (the `rstrip('.')` is the identity here because
the match contains letters only). -/
def monthLookup (l : List Char) : Option Nat :=
  MONTHS_PT.lookup (String.mk (l.map myLower))

/-- Tail of the Portuguese date pattern after the month name:
`\.?\s*de\s+(\d{4})`, returning the four captured year digits.  The
pattern is deterministic: each greedy sub-match is forced by the next
literal character class. -/
def ptTailCore (r : List Char) : Option (List Char) :=
  let r2 := r.dropWhile Char.isWhitespace
  match r2 with
  | c1 :: c2 :: r3 =>
    if myLower c1 = 'd' ∧ myLower c2 = 'e' then
      let ws2 := r3.takeWhile Char.isWhitespace
      let r4 := r3.dropWhile Char.isWhitespace
      if ws2.length = 0 then none
      else
        let yRun := r4.takeWhile Char.isDigit
        if yRun.length < 4 then none else some (yRun.take 4)
    else none
  | _ => none

/-- `\.?` before the tail: consuming a present dot is the only branch
that can succeed (if the dot is left unconsumed the next character class
requires `d`/`D` and fails on `.`), so the optional match is
deterministic. -/
def ptTailMatch (r : List Char) : Option (List Char) :=
  match r with
  | '.' :: rr => ptTailCore rr
  | _ => ptTailCore r

/-- Backtracking over the greedy month-name group `([a-zç]+)`: try the
longest admissible name first, exactly like the regex engine.  Once the
regex match (the largest `k` whose tail matches) is fixed, the source
does a single `MONTHS_PT` lookup and falls through to the numeric date
pattern when the name is unknown — it never retries a shorter name. -/
def ptTryMonth (dayVal : Nat) (mRun r5 : List Char) : Nat → Option String
  | 0 => none
  | k + 1 =>
    match ptTailMatch (mRun.drop (k + 1) ++ r5) with
    | some yRun =>
      match monthLookup (mRun.take (k + 1)) with
      | some mo => some (String.mk yRun ++ "-" ++ fmt2 mo ++ "-" ++ fmt2 dayVal)
      | none => none
    | none => ptTryMonth dayVal mRun r5 k

/-- The Portuguese long-form branch of `normalize_date` (lines 148-155):
`re.match(r'(\d{1,2})\s+de\s+([a-zç]+)\.?\s*de\s+(\d{4})', t, IGNORECASE)`
followed by the month lookup; `none` covers both a failed pattern match
and an unknown month name, after which the source falls through to the
numeric pattern (no input can match both patterns, see the lemmas
below).  The leading `\d{1,2}` is deterministic: a shorter match than the
full digit run would put a digit where `\s` is required. -/
def ptParseL (t : List Char) : Option String :=
  let dRun := t.takeWhile Char.isDigit
  let r1 := t.dropWhile Char.isDigit
  if dRun.length = 0 ∨ 2 < dRun.length then none
  else
    let ws1 := r1.takeWhile Char.isWhitespace
    let r2 := r1.dropWhile Char.isWhitespace
    if ws1.length = 0 then none
    else
      match r2 with
      | c1 :: c2 :: r3 =>
        if myLower c1 = 'd' ∧ myLower c2 = 'e' then
          let ws2 := r3.takeWhile Char.isWhitespace
          let r4 := r3.dropWhile Char.isWhitespace
          if ws2.length = 0 then none
          else
            let mRun := r4.takeWhile isPtLetter
            let r5 := r4.dropWhile isPtLetter
            if mRun.length = 0 then none
            else ptTryMonth (digitsVal dRun) mRun r5 mRun.length
        else none
      | _ => none

/-- A separator of the numeric date pattern: the class `[\s\/\-]`. -/
def isDateSep (c : Char) : Bool :=
  c.isWhitespace || c = '/' || c = '-'

/-- The numeric branch pattern of `normalize_date` (line 158):
`re.match(r'(\d{1,2})[\s\/\-](\d{1,2})[\s\/\-](\d{2,4})', t)`, returning
the three captured digit groups.  Greediness is deterministic: the day
and month groups must take their entire digit run (a shorter match puts a
digit where a separator is required, and a run longer than 2 admits no
split), and the year group takes the first `min(4, run)` digits of its
run, requiring at least 2. -/
def ddmmParseL (t : List Char) : Option (List Char × List Char × List Char) :=
  let dRun := t.takeWhile Char.isDigit
  let r1 := t.dropWhile Char.isDigit
  if dRun.length = 0 ∨ 2 < dRun.length then none
  else
    match r1 with
    | [] => none
    | sep1 :: r2 =>
      if isDateSep sep1 then
        let mRun := r2.takeWhile Char.isDigit
        let r3 := r2.dropWhile Char.isDigit
        if mRun.length = 0 ∨ 2 < mRun.length then none
        else
          match r3 with
          | [] => none
          | sep2 :: r4 =>
            if isDateSep sep2 then
              let yRun := r4.takeWhile Char.isDigit
              if yRun.length < 2 then none
              else some (dRun, mRun, yRun.take 4)
            else none
      else none

/-- Formatting of the numeric branch (lines 160-164): `year.zfill(4)`,
then the (dead, see `normalize_date_zfill_bug`) 2-digit check, then
`f"{year_full}-{int(month):02d}-{int(day):02d}"`. -/
def formatDdmm (dRun mRun yRun : List Char) : String :=
  let yf := zfill4 yRun
  let yf := if yf.length = 2 then '2' :: '0' :: yf else yf
  String.mk yf ++ "-" ++ fmt2 (digitsVal mRun) ++ "-" ++ fmt2 (digitsVal dRun)

/-- `normalize_date` (lines 132-166): strip; empty is `None`; then the
strict ISO parse, the Portuguese long form and the numeric
`DD/MM/YYYY`-style pattern are tried in order, the first success
winning. -/
def normalize_date (s : String) : Option String :=
  let t := pyStripL s.toList
  if t = [] then none
  else
    match isoParseL (replaceZ t) with
    | some r => some (String.mk r)
    | none =>
      match ptParseL t with
      | some r => some r
      | none =>
        match ddmmParseL t with
        | some x => some (formatDdmm x.1 x.2.1 x.2.2)
        | none => none

/- ==================== detect_format (source lines 168-184) ==================== -/

/-- `detect_format` (lines 168-184): the layered header heuristic.  The
marker scans and the count fallback are pure, so hoisting them into a
shared `rest` value preserves the source's control flow exactly. -/
def detect_format (headers : List String) : String :=
  let numCols := headers.length
  let hasCicloFinal := headers.any (fun h =>
    containsSub (lowerS h) "ciclo_final" || containsSub (upperS h) "CICLO_FINAL")
  let hasClus := headers.any (fun h => pyStrip (lowerS h) == "clus")
  let rest := if hasCicloFinal || hasClus then "old"
              else if numCols = 36 then "old" else "new"
  if numCols = 33 then
    let hasCluster := headers.any (fun h => pyStrip (lowerS h) == "cluster")
    let hasCiclo := headers.any (fun h =>
      pyStrip (lowerS h) == "ciclo" && !(containsSub (lowerS h) "final"))
    if hasCluster || hasCiclo then "new" else rest
  else rest

/-- The Format-Detector rule exactly as the claim words it, with the
natural `AND`-binds-tighter-than-`OR` reading: the exact-`"ciclo"`
alternative is *not* guarded by the 33-column count. -/
def detect_format_claim (headers : List String) : String :=
  if (headers.length = 33 ∧ headers.any (fun h => pyStrip (lowerS h) == "cluster"))
      ∨ headers.any (fun h => h == "ciclo") then "new"
  else if headers.any (fun h => containsSub (lowerS h) "ciclo_final")
      ∨ headers.any (fun h => h == "clus") then "old"
  else if headers.length = 36 then "old" else "new"

/- ==================== determine_period (source lines 280-303) ==================== -/

/-- `extract_hour`'s regex `re.search(r'(\d{1,2})', value)`: the match
starts at the first digit and greedily takes a second digit when one
follows. -/
def firstHour12 : List Char → Option Int
  | [] => none
  | c :: r =>
    if c.isDigit then
      match r with
      | d :: _ =>
        if d.isDigit then some ((10 * (c.toNat - 48) + (d.toNat - 48) : Nat) : Int)
        else some ((c.toNat - 48 : Nat) : Int)
      | [] => some ((c.toNat - 48 : Nat) : Int)
    else firstHour12 r

/-- `extract_hour` (lines 289-298): falsy (`None` or empty) input gives
`None`; otherwise the first one-or-two-digit run, as an integer. -/
def extract_hour (v : Option String) : Option Int :=
  match v with
  | none => none
  | some s => if s = "" then none else firstHour12 s.toList

/-- `hour = extract_hour(hora_inicio) or extract_hour(hora_fim)`
(line 300) — Python `or`, so an extracted hour of `0` also falls back. -/
def hourOf (hora_inicio hora_fim : Option String) : Option Int :=
  pyOrInt (extract_hour hora_inicio) (extract_hour hora_fim)

/-- `determine_period` (lines 280-303). -/
def determine_period (ciclo_final hora_inicio hora_fim : Option String) : String :=
  let hourBranch :=
    match hourOf hora_inicio hora_fim with
    | none => "UNKNOWN"
    | some h => if h < 12 then "AM" else "PM"
  match ciclo_final with
  | some s =>
    if s ≠ "" then
      if containsSub (upperS s) "AM" then "AM"
      else if containsSub (upperS s) "PM" then "PM"
      else hourBranch
    else hourBranch
  | none => hourBranch

/-- First integer of a string read in full (maximal digit run), the way
the claim's words "the first integer found" read. -/
def firstIntFull : List Char → Option Int
  | [] => none
  | c :: r =>
    if c.isDigit then some ((digitsVal (c :: r.takeWhile Char.isDigit) : Nat) : Int)
    else firstIntFull r

/-- The claim's reading of the hour extraction. -/
def extract_hour_claim (v : Option String) : Option Int :=
  match v with
  | none => none
  | some s => firstIntFull s.toList

/-- The Period rule exactly as the claim words it: plain fallback to the
end time only when *no* integer is found in the start time, and the hour
taken as the whole first integer. -/
def determine_period_claim (ciclo_final hora_inicio hora_fim : Option String) : String :=
  let hourBranch :=
    match (match extract_hour_claim hora_inicio with
           | some h => some h
           | none => extract_hour_claim hora_fim) with
    | none => "UNKNOWN"
    | some h => if h < 12 then "AM" else "PM"
  match ciclo_final with
  | some s =>
    if containsSub (upperS s) "AM" then "AM"
    else if containsSub (upperS s) "PM" then "PM"
    else hourBranch
  | none => hourBranch

/- ==================== payment calculation (source lines 316-457) ==================== -/

/-- The pricing cells of a `valores_meli` row that `calculate_payments`
reads (lines 420-454), as JSON numbers or null. -/
structure PricingRow where
  tarifa_am : Option ℚ
  tarifa_pm : Option ℚ
  acima_de_110 : Option ℚ
  acima_de_80 : Option ℚ
  c_60_90 : Option ℚ
  c_91_100 : Option ℚ
  gt_100 : Option ℚ
  adicional_km : Option ℚ
  bonus_sdd : Option ℚ
deriving DecidableEq

/-- `DEFAULT_BONUS_PARADAS_80` (line 320). -/
def DEFAULT_BONUS_PARADAS_80 : ℚ := 20

/-- `DEFAULT_BONUS_PARADAS_110` (line 321). -/
def DEFAULT_BONUS_PARADAS_110 : ℚ := 40

/-- `pricing_row.get(field) if pricing_row else None`. -/
def cellOf (pricing : Option PricingRow) (f : PricingRow → Option ℚ) : Option ℚ :=
  match pricing with
  | some p => f p
  | none => none

/-- Base-tariff selection (lines 420-429): `parse_number` the two tariff
cells, then pick by period with Python-`or` fallback.  The `AM` and
unknown-period branches of the source are textually identical. -/
def tarifa_base (pricing : Option PricingRow) (periodo : String) : Option ℚ :=
  let tarifa_base_am := parse_number_num (cellOf pricing PricingRow.tarifa_am)
  let tarifa_base_pm := parse_number_num (cellOf pricing PricingRow.tarifa_pm)
  if periodo = "PM" then pyOrQ tarifa_base_pm tarifa_base_am
  else if periodo = "AM" then pyOrQ tarifa_base_am tarifa_base_pm
  else pyOrQ tarifa_base_am tarifa_base_pm

/-- Stop-count bonus (lines 432-437). -/
def bonus_paradas (pricing : Option PricingRow) (paradas : Option Int) : ℚ :=
  match paradas with
  | none => 0
  | some p =>
    if 110 < p then
      pyOrQD (parse_number_num (cellOf pricing PricingRow.acima_de_110))
        DEFAULT_BONUS_PARADAS_110
    else if 80 < p then
      pyOrQD (parse_number_num (cellOf pricing PricingRow.acima_de_80))
        DEFAULT_BONUS_PARADAS_80
    else 0

/-- Package-count bonus (lines 440-451). -/
def bonus_pacotes (pricing : Option PricingRow) (pacotes : Option Int) : ℚ :=
  let bonus_60_90 := parse_number_num (cellOf pricing PricingRow.c_60_90)
  let bonus_91_100 := parse_number_num (cellOf pricing PricingRow.c_91_100)
  let bonus_gt_100 := parse_number_num (cellOf pricing PricingRow.gt_100)
  match pacotes with
  | none => 0
  | some p =>
    if 60 ≤ p ∧ p ≤ 90 then pyOrQ0 bonus_60_90
    else if 91 ≤ p ∧ p ≤ 100 then pyOrQ0 bonus_91_100
    else if 100 < p then pyOrQ0 bonus_gt_100
    else 0

/-- `outro_bonus = 0.0` (line 455). -/
def outro_bonus : ℚ := 0

/-- `valor_total` (line 457). -/
def valor_total (pricing : Option PricingRow) (periodo : String)
    (paradas pacotes : Option Int) : ℚ :=
  let adicional_km := parse_number_num (cellOf pricing PricingRow.adicional_km)
  let bonus_sdd := parse_number_num (cellOf pricing PricingRow.bonus_sdd)
  pyOrQ0 (tarifa_base pricing periodo) + bonus_paradas pricing paradas +
    bonus_pacotes pricing pacotes + pyOrQ0 adicional_km + pyOrQ0 bonus_sdd +
    outro_bonus

/-- Base-tariff selection exactly as the claim words it: the other
period's tariff is used *only when* the preferred one is absent. -/
def tarifa_base_claim (pricing : Option PricingRow) (periodo : String) : Option ℚ :=
  let am := cellOf pricing PricingRow.tarifa_am
  let pm := cellOf pricing PricingRow.tarifa_pm
  if periodo = "PM" then (match pm with | some x => some x | none => am)
  else (match am with | some x => some x | none => pm)

/-- Stop-count bonus exactly as the claim words it: the constant default
applies *only when* the tier defines no bonus for the band. -/
def bonus_paradas_claim (pricing : Option PricingRow) (paradas : Option Int) : ℚ :=
  match paradas with
  | none => 0
  | some p =>
    if 110 < p then
      (match cellOf pricing PricingRow.acima_de_110 with
       | some x => x
       | none => DEFAULT_BONUS_PARADAS_110)
    else if 80 < p then
      (match cellOf pricing PricingRow.acima_de_80 with
       | some x => x
       | none => DEFAULT_BONUS_PARADAS_80)
    else 0

/- ==================== schema normalization (source lines 32-69, 186-276, 538-581) ==================== -/

/-- A value held in a row dictionary: Python `None`, a string, or an
integer. -/
inductive PyVal where
  | vNone : PyVal
  | vStr : String → PyVal
  | vInt : Int → PyVal
deriving DecidableEq

/-- Python truthiness of a `dict.get` result. -/
def truthyPy : Option PyVal → Bool
  | none => false
  | some PyVal.vNone => false
  | some (PyVal.vStr s) => s ≠ ""
  | some (PyVal.vInt n) => n ≠ 0

/-- A Python dict with string keys (`none` = key absent). -/
def PDict : Type := String → Option PyVal

/-- The empty dict. -/
def dempty : PDict := fun _ => none

/-- `d[k] = v`. -/
def dset (d : PDict) (k : String) (v : PyVal) : PDict :=
  fun k' => if k' = k then some v else d k'

/-- `TARGET_COLS_OLD` (lines 32-69). -/
def TARGET_COLS_OLD : List String :=
  ["data_entrega", "svc", "xpt", "mlp", "rotas", "ciclo_final", "clus",
   "driver", "placa", "id_veiculo", "veiculo", "hora_inicio", "hora_fim",
   "parada", "pacotes", "entregue", "insucessos", "ds", "orh_hours",
   "nao_visitado", "end_fechado", "cli_ausente", "mudou_se", "recusado",
   "avariado", "end_inacessivel", "falha", "roubado", "end_errado",
   "outros", "outros_insucessos_nao_mapeados", "at_station_problem_solving",
   "at_station", "at_station_aduana", "at_station_dev_buyer",
   "blocked_by_keyword"]

/-- `header_map = {h.lower().strip(): i for i, h in enumerate(headers)}`
(line 189); a later duplicate header overwrites an earlier one. -/
def headerMap (headers : List String) : String → Option Nat :=
  headers.enum.foldl
    (fun m p => fun k => if k = pyStrip (lowerS p.2) then some p.1 else m k)
    (fun _ => none)

/-- `values[idx].strip() if values[idx] else None` — the value stored for
a present column. -/
def truthyStrip (cell : String) : PyVal :=
  if cell = "" then PyVal.vNone else PyVal.vStr (pyStrip cell)

/-- `common_mappings` (lines 192-212), in insertion order. -/
def common_mappings : List (String × String) :=
  [("data", "data_entrega"), ("svc", "svc"), ("xpt", "xpt"), ("mlp", "mlp"),
   ("rotas", "rotas"), ("driver", "driver"), ("placa", "placa"),
   ("id_veiculo", "id_veiculo"), ("veículo", "veiculo"),
   ("veiculo", "veiculo"), ("hora_inicio", "hora_inicio"),
   ("hora_fim", "hora_fim"), ("parada", "parada"), ("pacotes", "pacotes"),
   ("entregue", "entregue"), ("ds", "ds"), ("orh_hours", "orh_hours"),
   ("at_station", "at_station"), ("blocked_by_keyword", "blocked_by_keyword")]

/-- `insucesso_fields` (lines 235-243), in insertion order. -/
def insucesso_fields : List (String × String) :=
  [("inaccessible_address", "end_inacessivel"), ("buyer_rejected", "recusado"),
   ("buyer_moved", "mudou_se"), ("buyer_absent", "cli_ausente"),
   ("business_closed", "end_fechado"), ("bad_address", "end_errado"),
   ("not_attempted", "nao_visitado")]

/-- One step of the common-mapping loop (lines 214-217): copy the cell
when the source column exists and its index is in range. -/
def commonStep (hm : String → Option Nat) (values : List String)
    (r : PDict) (p : String × String) : PDict :=
  match hm p.1 with
  | some idx =>
    match values.get? idx with
    | some cell => dset r p.2 (truthyStrip cell)
    | none => r
  | none => r

/-- One step of the failure-reason loop (lines 245-251): parse the cell
as an integer defaulting to 0, or store 0 when the column is absent or
out of range. -/
def insucessoStep (hm : String → Option Nat) (values : List String)
    (r : PDict) (p : String × String) : PDict :=
  match hm p.1 with
  | some idx =>
    match values.get? idx with
    | some cell => dset r p.2 (PyVal.vInt ((parse_integer cell).getD 0))
    | none => dset r p.2 (PyVal.vInt 0)
  | none => dset r p.2 (PyVal.vInt 0)

/-- Copy step for a single optionally-present source column (the
`ciclo`, `cluster` and `insucessos` mappings, lines 219-232). -/
def singleStep (values : List String)
    (r : PDict) (srcIdx : Option Nat) (dstKey : String) : PDict :=
  match srcIdx with
  | some idx =>
    match values.get? idx with
    | some cell => dset r dstKey (truthyStrip cell)
    | none => r
  | none => r

/-- `map_new_format_to_old` (lines 186-276). -/
def map_new_format_to_old (headers values : List String) : PDict :=
  let hm := headerMap headers
  let r1 := common_mappings.foldl (commonStep hm values) dempty
  let r2 := singleStep values r1 (hm "ciclo") "ciclo_final"
  let r3 := singleStep values r2 (hm "cluster") "clus"
  let r4 := singleStep values r3
    (pyOrIdx (hm "total de insucessos") (hm "total_insucessos")) "insucessos"
  let r5 := insucesso_fields.foldl (insucessoStep hm values) r4
  let r6 :=
    match pyOrIdx (hm "outros motivos") (hm "outros_motivos") with
    | some idx =>
      match values.get? idx with
      | some cell => dset r5 "outros" (truthyStrip cell)
      | none => dset r5 "outros" PyVal.vNone
    | none => dset r5 "outros" PyVal.vNone
  let r7 := dset r6 "nao_visitado" ((r6 "nao_visitado").getD (PyVal.vInt 0))
  let r8 := dset r7 "end_fechado" ((r7 "end_fechado").getD (PyVal.vInt 0))
  let r9 := dset r8 "cli_ausente" ((r8 "cli_ausente").getD (PyVal.vInt 0))
  let r10 := dset r9 "mudou_se" ((r9 "mudou_se").getD (PyVal.vInt 0))
  let r11 := dset r10 "recusado" ((r10 "recusado").getD (PyVal.vInt 0))
  let r12 := dset r11 "avariado" PyVal.vNone
  let r13 := dset r12 "end_inacessivel" ((r12 "end_inacessivel").getD (PyVal.vInt 0))
  let r14 := dset r13 "falha" PyVal.vNone
  let r15 := dset r14 "roubado" PyVal.vNone
  let r16 := dset r15 "end_errado" ((r15 "end_errado").getD (PyVal.vInt 0))
  let r17 := dset r16 "outros_insucessos_nao_mapeados" PyVal.vNone
  let r18 := dset r17 "at_station_problem_solving" PyVal.vNone
  let r19 := dset r18 "at_station_aduana" PyVal.vNone
  dset r19 "at_station_dev_buyer" PyVal.vNone

/-- The per-column value of the old (positional) path (lines 563-578):
cell present → strip (empty/falsy cell → `None`; the date column runs
through `normalize_date`), cell missing → `None`. -/
def oldCell (col : String) (i : Nat) (values : List String) : PyVal :=
  match values.get? i with
  | some cell =>
    let raw := if cell = "" then "" else pyStrip cell
    if col = "data_entrega" then
      match normalize_date raw with
      | some d => PyVal.vStr d
      | none => PyVal.vNone
    else if raw = "" then PyVal.vNone else PyVal.vStr raw
  | none => PyVal.vNone

/-- The positional loop `for i, col_name in enumerate(TARGET_COLS_OLD)`
building the old-path item, as an association list keyed like the Python
dict. -/
def build_old_cells : List String → Nat → List String → List (String × PyVal)
  | [], _, _ => []
  | c :: cs, i, values => (c, oldCell c i values) :: build_old_cells cs (i + 1) values

/-- The old-path canonical item of `process_csv_file` (lines 562-578). -/
def build_old_item (values : List String) : List (String × PyVal) :=
  build_old_cells TARGET_COLS_OLD 0 values

/-- The `data_entrega` value of the new-path canonical item (lines
545-555): the mapped dict's value run through `normalize_date` when
truthy, `None` otherwise (including a failed conversion, which only
warns). -/
def newDataVal (headers values : List String) : PyVal :=
  let mapped := map_new_format_to_old headers values
  if truthyPy (mapped "data_entrega") then
    match mapped "data_entrega" with
    | some (PyVal.vStr s) =>
      (match normalize_date s with
       | some d => PyVal.vStr d
       | none => PyVal.vNone)
    | _ => PyVal.vNone
  else PyVal.vNone

/-- The new-path canonical item of `process_csv_file` (lines 541-560):
`data_entrega` from the mapped dict through `normalize_date` (with a
truthiness guard), every other canonical column via `mapped.get(key)`
(absent key → `None`). -/
def build_new_item (headers values : List String) : List (String × PyVal) :=
  ("data_entrega", newDataVal headers values) ::
    (TARGET_COLS_OLD.filter (fun k => k ≠ "data_entrega")).map
      (fun k => (k, (map_new_format_to_old headers values k).getD PyVal.vNone))

/- ==================== concrete rows used by the claims ==================== -/

/-- A pricing row realizing the claim C1 example: base 100 (AM), stop
bonus 20 for the `> 80` band, per-km bonus present but 0, flat bonus 5. -/
def rowC1 : PricingRow :=
  ⟨some 100, none, none, some 20, none, none, none, some 0, some 5⟩

/-- A pricing row whose PM tariff is present but zero, AM tariff 50. -/
def rowC2 : PricingRow :=
  ⟨some 50, some 0, none, none, none, none, none, none, none⟩

/-- A pricing row that defines the above-110 stop bonus as zero. -/
def rowC3 : PricingRow :=
  ⟨none, none, some 0, none, none, none, none, none, none⟩

/-- A pricing row with no above-110 bonus defined. -/
def rowC3none : PricingRow :=
  ⟨none, none, none, none, none, none, none, none, none⟩

/-- A pricing row with the above-80 stop bonus defined as 15. -/
def rowC3b : PricingRow :=
  ⟨none, none, none, some 15, none, none, none, none, none⟩

/-- A 36-name header list whose only marker is an exact "ciclo" column:
`detect_format` and the claim's wording disagree on it. -/
def headersC4 : List String :=
  ["ciclo", "h01", "h02", "h03", "h04", "h05", "h06", "h07", "h08", "h09",
   "h10", "h11", "h12", "h13", "h14", "h15", "h16", "h17", "h18", "h19",
   "h20", "h21", "h22", "h23", "h24", "h25", "h26", "h27", "h28", "h29",
   "h30", "h31", "h32", "h33", "h34", "h35"]

/-- A 33-name header list including "Cluster" (claim C4's first
example). -/
def headersC4new : List String :=
  ["Cluster", "g01", "g02", "g03", "g04", "g05", "g06", "g07", "g08",
   "g09", "g10", "g11", "g12", "g13", "g14", "g15", "g16", "g17", "g18",
   "g19", "g20", "g21", "g22", "g23", "g24", "g25", "g26", "g27", "g28",
   "g29", "g30", "g31", "g32"]

/-- A 36-name header list including "clus" and "ciclo_final" (claim C4's
second example). -/
def headersC4old : List String :=
  ["clus", "ciclo_final", "f01", "f02", "f03", "f04", "f05", "f06", "f07",
   "f08", "f09", "f10", "f11", "f12", "f13", "f14", "f15", "f16", "f17",
   "f18", "f19", "f20", "f21", "f22", "f23", "f24", "f25", "f26", "f27",
   "f28", "f29", "f30", "f31", "f32", "f33", "f34"]

/- ==================== helper lemmas ==================== -/

theorem pyOrQ0_eq_getD (a : Option ℚ) : pyOrQ0 a = a.getD 0 := by
  cases a with
  | none => rfl
  | some x =>
    simp only [pyOrQ0, pyOrQD, Option.getD_some]
    split <;> simp_all

/- ==================== claim C1 ==================== -/

/-- C1: for every pricing entry (or none), period, stop count and package
count, the payment total is base tariff + stop-count bonus + package-count
bonus + per-km bonus + flat bonus with every null component counted as
0.0; and the claim's example base=100, stopBonus=20, pkgBonus=0, km=0,
flat=5 totals exactly 125.0. -/
theorem valor_total_decomposition :
    (∀ (pricing : Option PricingRow) (periodo : String) (paradas pacotes : Option Int),
      valor_total pricing periodo paradas pacotes =
        (tarifa_base pricing periodo).getD 0 + bonus_paradas pricing paradas +
          bonus_pacotes pricing pacotes +
          (cellOf pricing PricingRow.adicional_km).getD 0 +
          (cellOf pricing PricingRow.bonus_sdd).getD 0) ∧
    valor_total (some rowC1) "AM" (some 85) (some 10) = 125 := by
  constructor
  · intro pricing periodo paradas pacotes
    simp [valor_total, parse_number_num, pyOrQ0_eq_getD, outro_bonus]
  · norm_num [valor_total, tarifa_base, bonus_paradas, bonus_pacotes, rowC1,
      cellOf, parse_number_num, pyOrQ, pyOrQD, pyOrQ0, outro_bonus,
      DEFAULT_BONUS_PARADAS_80, DEFAULT_BONUS_PARADAS_110]

/- ==================== claim C2 ==================== -/

/-- C2 counterexample: for the pricing row whose PM tariff is present but
zero (AM tariff 50) and period PM, the code falls back and yields 50,
while the claim's rule ("falling back to the AM tariff only when the PM
tariff is absent") yields the PM tariff 0. -/
theorem tarifa_base_claim_counterexample :
    tarifa_base (some rowC2) "PM" = some 50 ∧
    tarifa_base_claim (some rowC2) "PM" = some 0 ∧
    tarifa_base (some rowC2) "PM" ≠ tarifa_base_claim (some rowC2) "PM" :=
  ⟨by decide, by decide, by decide⟩

/-- C2 amended: base-tariff selection depends only on period and the two
tariff cells: with period PM the PM tariff is used, falling back to the
AM tariff when the PM tariff is absent *or zero* (Python falsiness);
symmetrically, any non-PM period (AM or unknown) prefers the AM tariff
with the same absent-or-zero fallback to PM; and with no pricing entry at
all the base tariff is null. -/
theorem tarifa_base_amended :
    (∀ (pricing : Option PricingRow) (x : ℚ),
      cellOf pricing PricingRow.tarifa_pm = some x → x ≠ 0 →
        tarifa_base pricing "PM" = some x) ∧
    (∀ pricing : Option PricingRow,
      (cellOf pricing PricingRow.tarifa_pm = none ∨
       cellOf pricing PricingRow.tarifa_pm = some 0) →
        tarifa_base pricing "PM" = cellOf pricing PricingRow.tarifa_am) ∧
    (∀ (pricing : Option PricingRow) (periodo : String) (x : ℚ), periodo ≠ "PM" →
      cellOf pricing PricingRow.tarifa_am = some x → x ≠ 0 →
        tarifa_base pricing periodo = some x) ∧
    (∀ (pricing : Option PricingRow) (periodo : String), periodo ≠ "PM" →
      (cellOf pricing PricingRow.tarifa_am = none ∨
       cellOf pricing PricingRow.tarifa_am = some 0) →
        tarifa_base pricing periodo = cellOf pricing PricingRow.tarifa_pm) ∧
    (∀ periodo : String, tarifa_base none periodo = none) := by
  refine ⟨?_, ?_, ?_, ?_, ?_⟩
  · intro pricing x hpm hx
    simp [tarifa_base, parse_number_num, hpm, pyOrQ, hx]
  · intro pricing hpm
    rcases hpm with hpm | hpm <;> simp [tarifa_base, parse_number_num, hpm, pyOrQ]
  · intro pricing periodo x hper ham hx
    simp [tarifa_base, parse_number_num, hper, ham, pyOrQ, hx]
  · intro pricing periodo hper ham
    rcases ham with ham | ham <;>
      simp [tarifa_base, parse_number_num, hper, ham, pyOrQ]
  · intro periodo
    simp [tarifa_base, cellOf, parse_number_num, pyOrQ]

/-- C2 witness: the amended rule applied at concrete inputs. -/
theorem tarifa_base_amended_witness :
    tarifa_base (some rowC2) "AM" = some 50 ∧ tarifa_base none "X" = none :=
  ⟨tarifa_base_amended.2.2.1 (some rowC2) "AM" 50 (by decide) (by decide)
     (by decide),
   tarifa_base_amended.2.2.2.2 "X"⟩

/- ==================== claim C3 ==================== -/

/-- C3 counterexample: with stop count 111 and a tier that *defines* the
above-110 bonus as 0, the code applies the default constant 40, while the
claim's rule ("defaulting to 40 only when the tier defines none") yields
the defined bonus 0. -/
theorem bonus_paradas_claim_counterexample :
    bonus_paradas (some rowC3) (some 111) = 40 ∧
    bonus_paradas_claim (some rowC3) (some 111) = 0 ∧
    bonus_paradas (some rowC3) (some 111) ≠
      bonus_paradas_claim (some rowC3) (some 111) :=
  ⟨by decide, by decide, by decide⟩

/-- C3 amended: the stop-count bonus uses the tier's above-110 bonus for
counts above 110 and the tier's above-80 bonus for counts in (80, 110],
with the fixed constants 40 and 20 applying when the tier's bonus is
absent *or zero* (Python falsiness); at most 80 stops or an unknown stop
count gives zero.  The claim's examples hold: count 111 with no above-110
bonus gives 40, count 85 with above-80 = 15 gives 15. -/
theorem bonus_paradas_amended :
    (∀ (pricing : Option PricingRow) (p : Int) (x : ℚ), 110 < p →
      cellOf pricing PricingRow.acima_de_110 = some x → x ≠ 0 →
        bonus_paradas pricing (some p) = x) ∧
    (∀ (pricing : Option PricingRow) (p : Int), 110 < p →
      (cellOf pricing PricingRow.acima_de_110 = none ∨
       cellOf pricing PricingRow.acima_de_110 = some 0) →
        bonus_paradas pricing (some p) = 40) ∧
    (∀ (pricing : Option PricingRow) (p : Int) (x : ℚ), 80 < p → p ≤ 110 →
      cellOf pricing PricingRow.acima_de_80 = some x → x ≠ 0 →
        bonus_paradas pricing (some p) = x) ∧
    (∀ (pricing : Option PricingRow) (p : Int), 80 < p → p ≤ 110 →
      (cellOf pricing PricingRow.acima_de_80 = none ∨
       cellOf pricing PricingRow.acima_de_80 = some 0) →
        bonus_paradas pricing (some p) = 20) ∧
    (∀ (pricing : Option PricingRow) (p : Int), p ≤ 80 →
      bonus_paradas pricing (some p) = 0) ∧
    (∀ pricing : Option PricingRow, bonus_paradas pricing none = 0) ∧
    bonus_paradas (some rowC3none) (some 111) = 40 ∧
    bonus_paradas (some rowC3b) (some 85) = 15 := by
  refine ⟨?_, ?_, ?_, ?_, ?_, ?_, by decide, by decide⟩
  · intro pricing p x hp hcell hx
    simp [bonus_paradas, parse_number_num, hp, hcell, pyOrQD, hx]
  · intro pricing p hp hcell
    rcases hcell with hcell | hcell <;>
      simp [bonus_paradas, parse_number_num, hp, hcell, pyOrQD,
        DEFAULT_BONUS_PARADAS_110]
  · intro pricing p x hp1 hp2 hcell hx
    have hnot : ¬(110 < p) := by omega
    simp [bonus_paradas, parse_number_num, hnot, hp1, hcell, pyOrQD, hx]
  · intro pricing p hp1 hp2 hcell
    have hnot : ¬(110 < p) := by omega
    rcases hcell with hcell | hcell <;>
      simp [bonus_paradas, parse_number_num, hnot, hp1, hcell, pyOrQD,
        DEFAULT_BONUS_PARADAS_80]
  · intro pricing p hp
    have h1 : ¬(110 < p) := by omega
    have h2 : ¬(80 < p) := by omega
    simp [bonus_paradas, h1, h2]
  · intro pricing
    simp [bonus_paradas]

/-- C3 witness: the amended rule applied at concrete inputs. -/
theorem bonus_paradas_amended_witness :
    bonus_paradas none (some 50) = 0 ∧ bonus_paradas none (some 111) = 40 :=
  ⟨bonus_paradas_amended.2.2.2.2.1 none 50 (by decide),
   bonus_paradas_amended.2.1 none 111 (by decide) (Or.inl (by decide))⟩

/- ==================== claim C6 (code bug) ==================== -/

/-- C6: the code evaluated at the claim's example input.  `normalize_date`
maps `"05/03/25"` to `"0025-03-05"`, not to the documented
`"2025-03-05"`: line 161 pads the 2-digit year with `zfill(4)` *before*
the `len == 2` test of line 162, so the `"20" +` branch of line 163 can
never run. -/
theorem normalize_date_zfill_bug :
    normalize_date "05/03/25" = some "0025-03-05" ∧
    normalize_date "05/03/25" ≠ some "2025-03-05" :=
  ⟨by decide, by decide⟩

/- ==================== claim C7 ==================== -/

/-- C7: the empty-input asymmetry of the numeric parsers.  `parse_number`
returns 0.0 for the empty string and for every input whose cleaned
residue is empty, `-`, `--` or `.`; `parse_integer` returns null for the
empty string, for a bare `-`, and in general whenever its digit residue
is empty or `-`. -/
theorem parser_empty_asymmetry :
    parse_number "" = some 0 ∧
    (∀ s : String,
      (cleanNumberL s.toList = [] ∨ cleanNumberL s.toList = ['-'] ∨
       cleanNumberL s.toList = ['-', '-'] ∨ cleanNumberL s.toList = ['.']) →
      parse_number s = some 0) ∧
    parse_integer "" = none ∧
    parse_integer "-" = none ∧
    (∀ s : String,
      (intResidueL s.toList = [] ∨ intResidueL s.toList = ['-']) →
      parse_integer s = none) := by
  refine ⟨by decide, ?_, by decide, by decide, ?_⟩
  · intro s h
    rcases h with h | h | h | h <;> simp only [String.toList] at h <;>
      simp [parse_number, h]
  · intro s h
    rcases h with h | h <;> simp only [String.toList] at h <;>
      simp [parse_integer, h]

/-- C7 witness: the universal parts applied at concrete inputs. -/
theorem parser_empty_asymmetry_witness :
    parse_number "abc" = some 0 ∧ parse_integer " - " = none :=
  ⟨parser_empty_asymmetry.2.1 "abc" (Or.inl (by decide)),
   parser_empty_asymmetry.2.2.2.2 " - " (Or.inr (by decide))⟩

/- ==================== claim C8 ==================== -/

/-- C8 counterexample: `parse_integer "  1,234"` is not null, refuting
the claim's stated result. -/
theorem parse_integer_grouped_counterexample :
    parse_integer "  1,234" ≠ none := by decide

/-- C8 amended: `parse_integer "  1,234"` strips the non-digit
separators, leaving the residue `1234`, and returns the integer 1234 —
not null (null arises only for an empty or bare-`-` residue). -/
theorem parse_integer_grouped_value :
    parse_integer "  1,234" = some 1234 ∧
    intResidueL "  1,234".toList = ['1', '2', '3', '4'] :=
  ⟨by decide, by decide⟩

/- ==================== claim C5 ==================== -/

/-- C5 counterexample: with no cycle label, start time "0:30" and end
time "15:00", the first integer found in the start-time string is 0, so
the claim's rule classifies the period as AM; the code's Python `or`
treats the extracted 0 as falsy, falls back to the end time and returns
PM. -/
theorem determine_period_claim_counterexample :
    determine_period none (some "0:30") (some "15:00") = "PM" ∧
    determine_period_claim none (some "0:30") (some "15:00") = "AM" ∧
    determine_period none (some "0:30") (some "15:00") ≠
      determine_period_claim none (some "0:30") (some "15:00") :=
  ⟨by decide, by decide, by decide⟩

/-- C5 amended: the period is derived from the cycle label when it
contains "AM" (checked first) or "PM" case-insensitively; otherwise the
hour is the first at-most-two-digit digit run of the start-time string,
falling back to the end-time string when no digit is found there *or the
extracted value is 0* (Python falsiness); hour < 12 is AM, hour >= 12 is
PM, and no extractable hour is UNKNOWN. -/
theorem determine_period_amended :
    (∀ (s : String) (hi hf : Option String), containsSub (upperS s) "AM" = true →
      determine_period (some s) hi hf = "AM") ∧
    (∀ (s : String) (hi hf : Option String), containsSub (upperS s) "AM" = false →
      containsSub (upperS s) "PM" = true →
      determine_period (some s) hi hf = "PM") ∧
    (∀ (ciclo hi hf : Option String),
      (∀ s, ciclo = some s → containsSub (upperS s) "AM" = false ∧
        containsSub (upperS s) "PM" = false) →
      hourOf hi hf = none → determine_period ciclo hi hf = "UNKNOWN") ∧
    (∀ (ciclo hi hf : Option String) (h : Int),
      (∀ s, ciclo = some s → containsSub (upperS s) "AM" = false ∧
        containsSub (upperS s) "PM" = false) →
      hourOf hi hf = some h →
      determine_period ciclo hi hf = (if h < 12 then "AM" else "PM")) ∧
    (∀ hi hf : Option String, hourOf hi hf =
      (match extract_hour hi with
       | some h => if h = 0 then extract_hour hf else some h
       | none => extract_hour hf)) ∧
    extract_hour (some "115") = some 11 := by
  refine ⟨?_, ?_, ?_, ?_, ?_, by decide⟩
  · intro s hi hf hAM
    by_cases hs : s = ""
    · rw [hs] at hAM
      exact absurd hAM (by decide)
    · simp [determine_period, hs, hAM]
  · intro s hi hf hAM hPM
    by_cases hs : s = ""
    · rw [hs] at hPM
      exact absurd hPM (by decide)
    · simp [determine_period, hs, hAM, hPM]
  · intro ciclo hi hf hno hEq
    cases ciclo with
    | none => simp [determine_period, hEq]
    | some s =>
      obtain ⟨h1, h2⟩ := hno s rfl
      by_cases hs : s = "" <;> simp [determine_period, hs, h1, h2, hEq]
  · intro ciclo hi hf h hno hEq
    cases ciclo with
    | none => simp [determine_period, hEq]
    | some s =>
      obtain ⟨h1, h2⟩ := hno s rfl
      by_cases hs : s = "" <;> simp [determine_period, hs, h1, h2, hEq]
  · intro hi hf
    cases h : extract_hour hi <;> simp [hourOf, pyOrInt, h]

/-- C5 witness: the amended rule applied at concrete inputs. -/
theorem determine_period_amended_witness :
    determine_period (some "ciclo am 1") none none = "AM" ∧
    determine_period none none none = "UNKNOWN" :=
  ⟨determine_period_amended.1 "ciclo am 1" none none (by decide),
   determine_period_amended.2.2.1 none none none (fun s hs => nomatch hs)
     (by decide)⟩

/- ==================== claim C4 ==================== -/

theorem detect_format_new_iff (headers : List String) :
    detect_format headers = "new" ↔
      ((headers.length = 33 ∧
        (headers.any (fun h => pyStrip (lowerS h) == "cluster") = true ∨
         headers.any (fun h => pyStrip (lowerS h) == "ciclo" &&
           !(containsSub (lowerS h) "final")) = true)) ∨
       (¬(headers.any (fun h => containsSub (lowerS h) "ciclo_final" ||
            containsSub (upperS h) "CICLO_FINAL") = true ∨
          headers.any (fun h => pyStrip (lowerS h) == "clus") = true) ∧
        headers.length ≠ 36)) := by
  unfold detect_format
  by_cases h33 : headers.length = 33 <;>
    by_cases hA : headers.any (fun h => pyStrip (lowerS h) == "cluster") = true <;>
    by_cases hB : headers.any (fun h => pyStrip (lowerS h) == "ciclo" &&
      !(containsSub (lowerS h) "final")) = true <;>
    by_cases hC : headers.any (fun h => containsSub (lowerS h) "ciclo_final" ||
      containsSub (upperS h) "CICLO_FINAL") = true <;>
    by_cases hD : headers.any (fun h => pyStrip (lowerS h) == "clus") = true <;>
    by_cases h36 : headers.length = 36 <;>
    simp_all

/-- C4 counterexample: a 36-name header list whose only marker is a
column named exactly "ciclo".  The claim's rule (read with its "or if"
as a top-level alternative, i.e. the exact-"ciclo" check not restricted
to 33 columns) classifies it as new, but the code's "ciclo" check only
runs inside the 33-column branch, no old-marker matches, and the
36-column fallback returns old. -/
theorem detect_format_claim_counterexample :
    detect_format headersC4 = "old" ∧
    detect_format_claim headersC4 = "new" ∧
    detect_format headersC4 ≠ detect_format_claim headersC4 :=
  ⟨by decide, by decide, by decide⟩

/-- C4 amended: the detector returns new exactly when either the column
count is exactly 33 and a trimmed case-insensitive "cluster" column or a
trimmed case-insensitive "ciclo" column (not containing "final") exists
— both marker checks, including the "ciclo" one, applying only at 33
columns — or no old-marker (a case-insensitive "ciclo_final" substring
or an exact trimmed "clus" column) exists and the column count is not
36; every other header list yields old.  The claim's two examples hold:
33 names with "Cluster" give new, 36 names with "clus" and "ciclo_final"
give old. -/
theorem detect_format_amended :
    (∀ headers : List String,
      (detect_format headers = "new" ↔
        ((headers.length = 33 ∧
          ((∃ h ∈ headers, pyStrip (lowerS h) = "cluster") ∨
           (∃ h ∈ headers, pyStrip (lowerS h) = "ciclo" ∧
             containsSub (lowerS h) "final" = false))) ∨
         (¬((∃ h ∈ headers, containsSub (lowerS h) "ciclo_final" = true ∨
               containsSub (upperS h) "CICLO_FINAL" = true) ∨
            (∃ h ∈ headers, pyStrip (lowerS h) = "clus")) ∧
          headers.length ≠ 36))) ∧
      (detect_format headers = "new" ∨ detect_format headers = "old")) ∧
    detect_format headersC4new = "new" ∧
    detect_format headersC4old = "old" := by
  refine ⟨?_, by decide, by decide⟩
  intro headers
  constructor
  · rw [detect_format_new_iff]
    simp [List.any_eq_true, Bool.and_eq_true, Bool.or_eq_true,
      Bool.not_eq_true']
  · unfold detect_format
    dsimp only
    split_ifs <;> simp

/- ==================== claim C9 ==================== -/

theorem lookup_build_old_cells_mem (cols : List String) :
    ∀ (n : Nat) (values : List String) (col : String), col ∈ cols →
      ∃ v, (build_old_cells cols n values).lookup col = some v := by
  induction cols with
  | nil => intro n values col h; exact absurd h (List.not_mem_nil col)
  | cons c cs ih =>
    intro n values col h
    by_cases hc : col = c
    · exact ⟨oldCell c n values, by simp [build_old_cells, List.lookup, hc]⟩
    · rcases List.mem_cons.mp h with h' | h'
      · exact absurd h' hc
      · obtain ⟨v, hv⟩ := ih (n + 1) values col h'
        have hbeq : (col == c) = false := by simp [hc]
        exact ⟨v, by simp [build_old_cells, List.lookup, hbeq, hv]⟩

theorem lookup_cons_self (k : String) (v : PyVal) (l : List (String × PyVal)) :
    List.lookup k ((k, v) :: l) = some v := by
  simp [List.lookup]

theorem lookup_cons_of_ne (a k : String) (v : PyVal) (l : List (String × PyVal))
    (h : (a == k) = false) : List.lookup a ((k, v) :: l) = List.lookup a l := by
  simp [List.lookup, h]

theorem lookup_build_old_cells_get (cols : List String) :
    cols.Nodup → ∀ (n : Nat) (values : List String) (i : Nat), ∀ h : i < cols.length,
      (build_old_cells cols n values).lookup cols[i] =
        some (oldCell cols[i] (n + i) values) := by
  induction cols with
  | nil => intro _ n values i h; exact absurd h (by simp)
  | cons c cs ih =>
    intro hnd n values i h
    cases i with
    | zero => simp [build_old_cells, List.lookup]
    | succ j =>
      have hj : j < cs.length := by
        simpa using h
      have hget : (c :: cs)[j + 1] = cs[j] := List.getElem_cons_succ ..
      have hmem : cs[j] ∈ cs := List.getElem_mem hj
      have hne : cs[j] ≠ c := by
        intro heq
        exact (List.nodup_cons.mp hnd).1 (heq ▸ hmem)
      have hbeq : (cs[j] == c) = false := beq_eq_false_iff_ne.mpr hne
      have ihres := ih (List.nodup_cons.mp hnd).2 (n + 1) values j hj
      have harith : n + 1 + j = n + (j + 1) := by omega
      rw [hget]
      simp only [build_old_cells]
      rw [lookup_cons_of_ne _ _ _ _ hbeq, ihres, harith]

theorem lookup_map_pair (g : String → PyVal) (l : List String) :
    ∀ col, col ∈ l → (l.map (fun k => (k, g k))).lookup col = some (g col) := by
  induction l with
  | nil => intro col h; exact absurd h (List.not_mem_nil col)
  | cons c cs ih =>
    intro col h
    by_cases hc : col = c
    · simp [List.lookup, hc]
    · have hbeq : (col == c) = false := by simp [hc]
      rcases List.mem_cons.mp h with h' | h'
      · exact absurd h' hc
      · simp [List.lookup, hbeq, ih col h']

/-- C9: in both normalization paths every canonical field name is a
present key of the produced record: the old (positional) path maps every
name of `TARGET_COLS_OLD`, storing null for missing trailing cells (any
index at or beyond the row length), and the new (name-based) path maps
every name as well, storing null for every non-date field that the
mapped dictionary lacks.  No field is ever omitted. -/
theorem canonical_record_fields_present :
    (∀ (values : List String) (col : String), col ∈ TARGET_COLS_OLD →
      ∃ v, (build_old_item values).lookup col = some v) ∧
    (∀ (values : List String) (i : Nat), ∀ h : i < TARGET_COLS_OLD.length,
      values.length ≤ i →
      (build_old_item values).lookup TARGET_COLS_OLD[i] =
        some PyVal.vNone) ∧
    (∀ (headers values : List String) (col : String), col ∈ TARGET_COLS_OLD →
      ∃ v, (build_new_item headers values).lookup col = some v) ∧
    (∀ (headers values : List String) (col : String), col ∈ TARGET_COLS_OLD →
      col ≠ "data_entrega" → map_new_format_to_old headers values col = none →
      (build_new_item headers values).lookup col = some PyVal.vNone) := by
  refine ⟨?_, ?_, ?_, ?_⟩
  · intro values col hcol
    exact lookup_build_old_cells_mem TARGET_COLS_OLD 0 values col hcol
  · intro values i h hlen
    have hnd : TARGET_COLS_OLD.Nodup := by decide
    rw [build_old_item, lookup_build_old_cells_get TARGET_COLS_OLD hnd 0 values i h]
    have hnone : values[i]? = none := by
      rw [List.getElem?_eq_none_iff]
      omega
    simp [oldCell, Nat.zero_add, hnone]
  · intro headers values col hcol
    by_cases hc : col = "data_entrega"
    · subst hc
      exact ⟨newDataVal headers values, lookup_cons_self _ _ _⟩
    · have hmem : col ∈ TARGET_COLS_OLD.filter (fun k => k ≠ "data_entrega") := by
        rw [List.mem_filter]
        exact ⟨hcol, by simp [hc]⟩
      have hl : List.lookup col
          ((TARGET_COLS_OLD.filter (fun k => k ≠ "data_entrega")).map
            (fun k => (k, (map_new_format_to_old headers values k).getD PyVal.vNone))) =
          some ((map_new_format_to_old headers values col).getD PyVal.vNone) :=
        lookup_map_pair _ _ col hmem
      have hbeq : (col == "data_entrega") = false := beq_eq_false_iff_ne.mpr hc
      refine ⟨(map_new_format_to_old headers values col).getD PyVal.vNone, ?_⟩
      rw [build_new_item, lookup_cons_of_ne _ _ _ _ hbeq]
      exact hl
  · intro headers values col hcol hc hnone
    have hmem : col ∈ TARGET_COLS_OLD.filter (fun k => k ≠ "data_entrega") := by
      rw [List.mem_filter]
      exact ⟨hcol, by simp [hc]⟩
    have hl : List.lookup col
        ((TARGET_COLS_OLD.filter (fun k => k ≠ "data_entrega")).map
          (fun k => (k, (map_new_format_to_old headers values k).getD PyVal.vNone))) =
        some ((map_new_format_to_old headers values col).getD PyVal.vNone) :=
      lookup_map_pair _ _ col hmem
    have hbeq : (col == "data_entrega") = false := beq_eq_false_iff_ne.mpr hc
    rw [build_new_item, lookup_cons_of_ne _ _ _ _ hbeq, hl, hnone]
    rfl

/-- C9 witness: the presence invariant applied at concrete inputs (an
empty data row: every key present, the trailing-cell rule yielding
null). -/
theorem canonical_record_fields_present_witness :
    (∃ v, (build_old_item []).lookup "svc" = some v) ∧
    (build_old_item []).lookup "xpt" = some PyVal.vNone :=
  ⟨canonical_record_fields_present.1 [] "svc" (by decide),
   canonical_record_fields_present.2.1 [] 2 (by decide) (by decide)⟩

/- ==================== claim C10 ==================== -/

theorem digit_not_ws (c : Char) (h : c.isDigit = true) : c.isWhitespace = false := by
  by_contra hw
  rw [Bool.not_eq_false] at hw
  simp only [Char.isWhitespace, Bool.or_eq_true, decide_eq_true_eq] at hw
  rcases hw with ((h' | h') | h') | h' <;> subst h' <;> exact absurd h (by decide)

theorem digit_bounds (c : Char) (h : c.isDigit = true) : '0' ≤ c ∧ c ≤ '9' := by
  simpa only [Char.isDigit, Bool.and_eq_true, decide_eq_true_eq] using h

theorem digit_myLower (c : Char) (h : c.isDigit = true) : myLower c = c := by
  obtain ⟨h0, h9⟩ := digit_bounds c h
  unfold myLower
  rw [if_neg, if_neg]
  · intro hC
    rw [hC] at h9
    exact absurd h9 (by decide)
  · rintro ⟨hA, -⟩
    exact absurd (le_trans hA h9) (by decide)

theorem digit_ne_d (c : Char) (h : c.isDigit = true) : c ≠ 'd' := by
  obtain ⟨-, h9⟩ := digit_bounds c h
  intro he
  rw [he] at h9
  exact absurd h9 (by decide)

theorem isDateSep_not_digit (c : Char) (h : isDateSep c = true) : c.isDigit = false := by
  simp only [isDateSep, Bool.or_eq_true, decide_eq_true_eq] at h
  rcases h with (h' | h') | h'
  · by_contra hd
    rw [Bool.not_eq_false] at hd
    rw [digit_not_ws c hd] at h'
    exact Bool.false_ne_true h'
  · subst h'; decide
  · subst h'; decide

theorem isDateSep_ne_Z (c : Char) (h : isDateSep c = true) : c ≠ 'Z' := by
  intro he
  subst he
  exact absurd h (by decide)

theorem replaceZ_cons_ne (c : Char) (l : List Char) (hc : c ≠ 'Z') :
    replaceZ (c :: l) = c :: replaceZ l := by
  simp [replaceZ, hc]

theorem isoParseL_cons2_none (a b : Char) (r : List Char) (hb : b.isDigit = false) :
    isoParseL (a :: b :: r) = none := by
  have h1 : isDigitAt (a :: b :: r) 1 = false := by
    simp [isDigitAt, hb]
  simp [isoParseL, h1]

theorem isoParseL_cons3_none (a b c3 : Char) (r : List Char) (hc : c3.isDigit = false) :
    isoParseL (a :: b :: c3 :: r) = none := by
  have h2 : isDigitAt (a :: b :: c3 :: r) 2 = false := by
    simp [isDigitAt, hc]
  simp [isoParseL, h2]

theorem ddmm_shape (t : List Char) (x : List Char × List Char × List Char)
    (h : ddmmParseL t = some x) :
    ((t.takeWhile Char.isDigit).length = 1 ∨ (t.takeWhile Char.isDigit).length = 2) ∧
    ∃ sep c r3, t.dropWhile Char.isDigit = sep :: c :: r3 ∧
      isDateSep sep = true ∧ c.isDigit = true := by
  unfold ddmmParseL at h
  dsimp only at h
  by_cases h1 : (t.takeWhile Char.isDigit).length = 0 ∨ 2 < (t.takeWhile Char.isDigit).length
  · rw [if_pos h1] at h
    exact absurd h (by simp)
  · rw [if_neg h1] at h
    push_neg at h1
    refine ⟨by omega, ?_⟩
    cases hd : t.dropWhile Char.isDigit with
    | nil =>
      rw [hd] at h
      exact absurd h (by simp)
    | cons sep r2 =>
      rw [hd] at h
      dsimp only at h
      by_cases hsep : isDateSep sep = true
      · rw [if_pos hsep] at h
        by_cases h2 : (r2.takeWhile Char.isDigit).length = 0 ∨ 2 < (r2.takeWhile Char.isDigit).length
        · rw [if_pos h2] at h
          exact absurd h (by simp)
        · push_neg at h2
          cases r2 with
          | nil =>
            exfalso
            exact h2.1 (by simp)
          | cons c r3 =>
            by_cases hc : c.isDigit = true
            · exact ⟨sep, c, r3, rfl, hsep, hc⟩
            · exfalso
              exact h2.1 (by simp [List.takeWhile_cons, hc])
      · rw [if_neg hsep] at h
        exact absurd h (by simp)

theorem ptParseL_none_of_ddmm (t : List Char) (sep c : Char) (r3 : List Char)
    (hd : t.dropWhile Char.isDigit = sep :: c :: r3)
    (hc : c.isDigit = true) :
    ptParseL t = none := by
  unfold ptParseL
  dsimp only
  by_cases h1 : (t.takeWhile Char.isDigit).length = 0 ∨ 2 < (t.takeWhile Char.isDigit).length
  · rw [if_pos h1]
  · rw [if_neg h1, hd]
    by_cases hws : sep.isWhitespace = true
    · have hcws : c.isWhitespace = false := digit_not_ws c hc
      have hld : myLower c ≠ 'd' := by
        rw [digit_myLower c hc]
        exact digit_ne_d c hc
      cases r3 with
      | nil => simp [List.takeWhile_cons, List.dropWhile_cons, hws, hcws]
      | cons c2 r4 =>
        simp [List.takeWhile_cons, List.dropWhile_cons, hws, hcws, hld]
    · simp [List.takeWhile_cons, hws]

/-- C10: `normalize_date` performs no calendar validation on its numeric
day/month/year pattern branch: whenever the `DD/MM/YYYY`-style pattern
(slash, dash or space separated) matches the stripped input, the
reformatted string is returned — whatever the day and month values are —
and in particular `normalize_date "31/13/2025"` is `"2025-13-31"`, not
null, despite month 13. -/
theorem normalize_date_no_calendar_validation :
    (∀ (s : String) (d m y : List Char),
      ddmmParseL (pyStripL s.toList) = some (d, m, y) →
      normalize_date s = some (formatDdmm d m y)) ∧
    normalize_date "31/13/2025" = some "2025-13-31" := by
  constructor
  · intro s d m y h
    set t := pyStripL s.toList with ht
    obtain ⟨hlen, sep, c, r3, hd, hsep, hc⟩ := ddmm_shape t _ h
    have htw : t.takeWhile Char.isDigit ++ t.dropWhile Char.isDigit = t :=
      List.takeWhile_append_dropWhile Char.isDigit t
    have hsepd : sep.isDigit = false := isDateSep_not_digit sep hsep
    have hsepz : sep ≠ 'Z' := isDateSep_ne_Z sep hsep
    have hiso : isoParseL (replaceZ t) = none := by
      rcases hlen with h1 | h2
      · obtain ⟨a, ha⟩ := List.length_eq_one.mp h1
        have haD : a.isDigit = true := by
          refine List.mem_takeWhile_imp (l := t) (p := Char.isDigit) ?_
          rw [ha]
          exact List.mem_singleton_self a
        have haz : a ≠ 'Z' := by
          intro he
          rw [he] at haD
          exact absurd haD (by decide)
        have ht' : t = a :: sep :: c :: r3 := by
          rw [← htw, ha, hd]
          rfl
        rw [ht', replaceZ_cons_ne _ _ haz, replaceZ_cons_ne _ _ hsepz]
        exact isoParseL_cons2_none _ _ _ hsepd
      · obtain ⟨a, b, hab⟩ := List.length_eq_two.mp h2
        have haD : a.isDigit = true := by
          refine List.mem_takeWhile_imp (l := t) (p := Char.isDigit) ?_
          rw [hab]
          simp
        have hbD : b.isDigit = true := by
          refine List.mem_takeWhile_imp (l := t) (p := Char.isDigit) ?_
          rw [hab]
          simp
        have haz : a ≠ 'Z' := by
          intro he
          rw [he] at haD
          exact absurd haD (by decide)
        have hbz : b ≠ 'Z' := by
          intro he
          rw [he] at hbD
          exact absurd hbD (by decide)
        have ht' : t = a :: b :: sep :: c :: r3 := by
          rw [← htw, hab, hd]
          rfl
        rw [ht', replaceZ_cons_ne _ _ haz, replaceZ_cons_ne _ _ hbz,
          replaceZ_cons_ne _ _ hsepz]
        exact isoParseL_cons3_none _ _ _ _ hsepd
    have hpt : ptParseL t = none := ptParseL_none_of_ddmm t sep c r3 hd hc
    have htne : ¬(t = []) := by
      intro h0
      rw [h0] at hd
      simp at hd
    unfold normalize_date
    rw [← ht, if_neg htne, hiso, hpt, h]
  · decide

/-- C10 witness: the universal part applied at the concrete out-of-range
input. -/
theorem normalize_date_no_calendar_validation_witness :
    normalize_date "31/13/2025" =
      some (formatDdmm ['3', '1'] ['1', '3'] ['2', '0', '2', '5']) :=
  normalize_date_no_calendar_validation.1 "31/13/2025"
    ['3', '1'] ['1', '3'] ['2', '0', '2', '5'] (by decide)
